import Mathlib

/-!
Verification of the `/chat` request path of `backend/app.py` (Apprised).

The Python code is shallowly embedded: Python strings are Lean `String`
(payload bytes that undergo comma-splitting are kept as `List Char` so the
semantics of `str.split` is modelled exactly), dictionaries coming from the
client are closed structures carrying the fields the code reads, and the two
external effects — base64+UTF-8 decoding of a payload and the primary
provider's behaviour during one call — are passed in as explicit parameters
(`decode`, `ProviderOutcome`).  Every definition mirrors a specific function
of `backend/app.py`; line numbers refer to that file.
-/

/-- Python `str.startswith` / prefix test on character lists:
`leadsWith needle hay` is true when `needle` is an initial segment of `hay`. -/
def leadsWith : List Char → List Char → Bool
  | [], _ => true
  | _ :: _, [] => false
  | a :: as, b :: bs => a == b && leadsWith as bs

/-- Python's substring test `needle in hay` (contiguous occurrence). -/
def hasSub (needle : List Char) : List Char → Bool
  | [] => leadsWith needle []
  | b :: bs => leadsWith needle (b :: bs) || hasSub needle bs

/-- Python `s.startswith(pre)`. -/
def pyStartsWith (s pre : String) : Bool := leadsWith pre.data s.data

/-- Python `s.lower()` restricted to its ASCII action (the error texts the
code classifies are ASCII). -/
def lowerChars (s : String) : List Char := s.data.map Char.toLower

/-- Python `str.split(sep)` for a one-character separator: splits at every
occurrence, keeping empty fields, and never returns an empty list. -/
def pySplit (sep : Char) : List Char → List (List Char)
  | [] => [[]]
  | c :: rest =>
    if c == sep then [] :: pySplit sep rest
    else
      match pySplit sep rest with
      | [] => [[c]]
      | h :: t => (c :: h) :: t

/-- Base64 unwrapping of a transport payload, app.py:276:
`data.split(',')[1] if ',' in data else data`. -/
def payloadOf (data : List Char) : List Char :=
  if data.contains ',' then (pySplit ',' data).getD 1 [] else data

/-- Mathematical statement that `needle` occurs contiguously inside `hay`
(used to state classification properties independently of `hasSub`). -/
def OccursIn (needle hay : List Char) : Prop := ∃ s t, hay = s ++ needle ++ t

/-- One entry of a content array: the untyped dicts the code builds or
forwards, closed into a tagged variant.  `image`/`document` are the blocks
built by `process_files`; `text` is a `{"type": "text", "text": t}` dict;
`raw` stands for any other client-supplied dict, carrying whatever `type`
and `text` fields it has. -/
inductive CPart where
  | image (mediaType : String) (data : List Char)
  | document (mediaType : String) (data : List Char)
  | text (t : String)
  | raw (ty : Option String) (txt : Option String)
deriving DecidableEq

/-- Python `part.get('type')`. -/
def partType : CPart → Option String
  | .image _ _ => some "image"
  | .document _ _ => some "document"
  | .text _ => some "text"
  | .raw ty _ => ty

/-- Python `part.get('text', '')`. -/
def partText : CPart → String
  | .text t => t
  | .raw _ (some t) => t
  | _ => ""

/-- Whether a part is a `{"type": "text", ...}` block built by the code. -/
def isTextPart : CPart → Bool
  | .text _ => true
  | _ => false

/-- Whether a part is an image block. -/
def isImagePart : CPart → Bool
  | .image _ _ => true
  | _ => false

/-- Whether a part is a document block. -/
def isDocPart : CPart → Bool
  | .document _ _ => true
  | _ => false

/-- A JSON value that is either a plain string or an array of content parts:
the shape of the `message` field and of a turn's `content`. -/
inductive Content where
  | str (s : String)
  | parts (l : List CPart)
deriving DecidableEq

/-- app.py:257-267, `extract_message_text`: a string is returned as is; in an
array the first part whose `type` field equals `"text"` supplies the text,
else the empty string. -/
def extract_message_text : Content → String
  | .str s => s
  | .parts l =>
    match l.find? (fun p => partType p == some "text") with
    | some p => partText p
    | none => ""

/-- Python truthiness of the `message` field: `""` and `[]` are falsy. -/
def msgFalsy : Content → Bool
  | .str s => s == ""
  | .parts l => l.isEmpty

/-- app.py:520 (and 498):
`final_text = text_files_content + question_text if text_files_content else question_text`. -/
def finalText (tfc q : String) : String :=
  if tfc == "" then q else tfc ++ q

/-- One element of the `files` array: the fields `process_files` reads.
`data` is kept as a character list so the comma-splitting of app.py:276 is
modelled exactly; `name` is `None`-able (`.get('name', 'unknown')`). -/
structure FileData where
  ty : String
  data : List Char
  name : Option String
deriving DecidableEq

/-- app.py:298-306: the allow-list of text-like media types. -/
def textTypes : List String :=
  ["text/csv", "text/plain", "text/html", "application/json",
   "text/javascript", "text/x-python", "text/markdown"]

/-- app.py:310: the labeled section appended to the inlined text for one
successfully decoded text-like file. -/
def fileSection (f : FileData) (content : String) : String :=
  "--- File: " ++ f.name.getD "unknown" ++ " (" ++ f.ty ++ ") ---\n" ++
    content ++ "\n--- End of File ---\n\n"

/-- app.py:269-314, `process_files`.  `decode` stands for
`base64.b64decode(·).decode('utf-8')`; `none` models the exception that the
`except` clause at app.py:311 catches (the file is skipped).  The loop's
accumulation is rendered as structural recursion: each iteration only
appends to `content_parts` and to `text_files_content`. -/
def process_files (decode : List Char → Option String) :
    List FileData → List CPart × String
  | [] => ([], "")
  | f :: rest =>
    let r := process_files decode rest
    if pyStartsWith f.ty "image/" then
      (CPart.image f.ty (payloadOf f.data) :: r.1, r.2)
    else if f.ty == "application/pdf" then
      (CPart.document f.ty (payloadOf f.data) :: r.1, r.2)
    else if textTypes.contains f.ty then
      match decode (payloadOf f.data) with
      | some content => (r.1, fileSection f content ++ r.2)
      | none => r
    else r

/-- Specification-side account of the block one attachment contributes:
an image block for `image/*`, a document block for `application/pdf`,
nothing otherwise. -/
def specBlock (f : FileData) : Option CPart :=
  if pyStartsWith f.ty "image/" then some (CPart.image f.ty (payloadOf f.data))
  else if f.ty == "application/pdf" then some (CPart.document f.ty (payloadOf f.data))
  else none

/-- Specification-side account of the inlined-text section one attachment
contributes: a labeled section exactly when its media type is allow-listed
and its payload decodes. -/
def specSection (decode : List Char → Option String) (f : FileData) : Option String :=
  if textTypes.contains f.ty then (decode (payloadOf f.data)).map (fileSection f)
  else none

/-- Concatenation, in input order, of the sections of `specSection`. -/
def specText (decode : List Char → Option String) : List FileData → String
  | [] => ""
  | f :: rest => (specSection decode f).getD "" ++ specText decode rest

/-- One event of the outbound stream (the JSON object of one `data:` line). -/
inductive Event where
  | chunk (text : String)
  | done
  | error (msg : String)
deriving DecidableEq

/-- Whether an event is a `chunk`. -/
def isChunk : Event → Bool
  | .chunk _ => true
  | _ => false

/-- Whether an event is the `done` marker. -/
def isDone : Event → Bool
  | .done => true
  | _ => false

/-- Whether an event is an `error`. -/
def isError : Event → Bool
  | .error _ => true
  | _ => false

/-- Whether an event is terminal (`done` or `error`). -/
def isTerminal (e : Event) : Bool := isDone e || isError e

/-- A tool invocation as the spec describes it in a provider response.  The
`/chat` code never inspects any of these fields. -/
structure ToolInvocation where
  toolName : String
  callId : String
  prompt : String
  surfaceResult : Bool
deriving DecidableEq

/-- The observable behaviour of the one primary-provider call the code makes
(app.py:558-560): the text deltas yielded by `stream.text_stream` before the
stream either closes normally (`err = none`) or raises with message `err`.
`toolUse` records a tool-use block carried by the response; the code's
text-only iteration never surfaces it. -/
structure ProviderOutcome where
  deltas : List String
  err : Option String
  toolUse : Option ToolInvocation
deriving DecidableEq

/-- app.py:566-572: substring classification of a provider error message. -/
def classify_error (msg : String) : String :=
  let low := lowerChars msg
  if hasSub "authentication".data low || hasSub "api key".data low then
    "Invalid API key. Please check your API key in Settings."
  else if hasSub "usage".data low || hasSub "quota".data low then
    "API usage limit reached. Please check your account."
  else msg

/-- app.py:540-573, the body of `generate`: forward every delta as a `chunk`,
then `done`; any exception raised during production is caught and becomes a
single classified `error` event. -/
def generate (p : ProviderOutcome) : List Event :=
  match p.err with
  | none => p.deltas.map Event.chunk ++ [Event.done]
  | some raw => p.deltas.map Event.chunk ++ [Event.error (classify_error raw)]

/-- A tool schema forwarded verbatim from the request to the provider. -/
structure ToolSchema where
  name : String
deriving DecidableEq

/-- One entry of the `messages` array sent to the provider. -/
structure TurnMsg where
  role : String
  content : Content
deriving DecidableEq

/-- app.py:543-555, `api_params`: `system` is added only when the prompt is
truthy; `tools` only when the list is truthy. -/
structure ApiParams where
  model : String
  maxTokens : Nat
  messages : List TurnMsg
  system : Option String
  tools : Option (List ToolSchema)
deriving DecidableEq

/-- How the primary provider is invoked. -/
inductive Mode where
  | streaming
  | singleShot
deriving DecidableEq

/-- The one provider call a `/chat` request makes: its mode and parameters. -/
structure ProviderCall where
  mode : Mode
  params : ApiParams
deriving DecidableEq

/-- Builds `api_params` (app.py:543-555). -/
def mkApiParams (model : String) (msgs : List TurnMsg) (systemPrompt : String)
    (tools : List ToolSchema) : ApiParams :=
  { model := model
    maxTokens := 20000
    messages := msgs
    system := if systemPrompt == "" then none else some systemPrompt
    tools := if tools.isEmpty then none else some tools }

/-- The provider call issued by `generate`: app.py:558 always enters
`client.messages.stream(**api_params)`, i.e. streaming mode, whatever the
parameters contain. -/
def chatCall (model : String) (msgs : List TurnMsg) (systemPrompt : String)
    (tools : List ToolSchema) : ProviderCall :=
  { mode := Mode.streaming
    params := mkApiParams model msgs systemPrompt tools }

/-- One entry of the `history` array: the fields the loop at app.py:489-512
reads.  `content` is modelled as the stored string (the code concatenates it
with file-derived text at app.py:498, which is only meaningful for
strings). -/
structure HistMsg where
  isUser : Bool
  content : String
  files : List FileData
deriving DecidableEq

/-- app.py:489-512: one history turn.  A user turn with files gets the
normalized blocks followed by one text block carrying inlined file text plus
the original content; otherwise the stored content passes through. -/
def histTurn (decode : List Char → Option String) (m : HistMsg) : TurnMsg :=
  let role := if m.isUser then "user" else "assistant"
  if !m.files.isEmpty && m.isUser then
    let r := process_files decode m.files
    { role := role, content := .parts (r.1 ++ [CPart.text (finalText r.2 m.content)]) }
  else
    { role := role, content := .str m.content }

/-- app.py:514-538: the content of the current turn.  With attachments, the
normalized blocks come first; a block-array message is appended as is
(app.py:525), while a string message contributes one trailing text block
carrying `final_text` (app.py:528).  Without attachments the message passes
through verbatim. -/
def buildCurrent (decode : List Char → Option String) (question : Content)
    (files : List FileData) : Content :=
  if files.isEmpty then question
  else
    let r := process_files decode files
    let ft := finalText r.2 (extract_message_text question)
    match question with
    | .parts l => .parts (r.1 ++ l)
    | .str _ => .parts (r.1 ++ [CPart.text ft])

/-- app.py:486-538: the full ordered `messages` array — history turns in
order, then the current user turn. -/
def buildMessages (decode : List Char → Option String) (history : List HistMsg)
    (question : Content) (files : List FileData) : List TurnMsg :=
  history.map (histTurn decode) ++
    [{ role := "user", content := buildCurrent decode question files }]

/-- Request context: authentication state and credential headers.
`chatGptKey` models the `X-ChatGPT-API-Key` header of the spec's secondary
provider; the `/chat` code never reads it.  `clientInitFails` models the
`except` at app.py:470 around the client constructor (unreachable in
practice for a provided string key). -/
structure Ctx where
  authed : Bool
  apiKey : Option String
  chatGptKey : Option String
  clientInitFails : Bool
deriving DecidableEq

/-- The JSON body of one `/chat` request (app.py:473-479 defaults applied by
the accessors below). -/
structure ChatRequest where
  message : Content
  history : List HistMsg
  systemPrompt : String
  tools : List ToolSchema
  files : List FileData
  model : Option String
deriving DecidableEq

/-- app.py:479: the model default. -/
def defaultModel : String := "claude-sonnet-4-5-20250929"

/-- Outcome of one `/chat` request: an HTTP JSON error `{'error': msg}` with
a status code, or a 200 streaming body together with the provider call that
produces it. -/
inductive ChatResult where
  | http (status : Nat) (msg : String)
  | stream (call : ProviderCall) (events : List Event)
deriving DecidableEq

/-- app.py:455-575, the `chat` endpoint: `login_required` (401), the
`X-API-Key` check (401, `not api_key` also rejects an empty value), client
construction (401 on failure), the empty-message check (400), then the
streaming response produced by `generate`. -/
def chat (decode : List Char → Option String) (ctx : Ctx) (req : ChatRequest)
    (p : ProviderOutcome) : ChatResult :=
  if ctx.authed = false then .http 401 "Authentication required"
  else
    match ctx.apiKey with
    | none => .http 401 "API key required. Please add your Anthropic API key."
    | some k =>
      if k == "" then .http 401 "API key required. Please add your Anthropic API key."
      else if ctx.clientInitFails then .http 401 "Invalid API key format"
      else if msgFalsy req.message then .http 400 "No message provided"
      else
        .stream
          (chatCall (req.model.getD defaultModel)
            (buildMessages decode req.history req.message req.files)
            req.systemPrompt req.tools)
          (generate p)

/-- The HTTP status of a result (`none` for a streaming 200 body). -/
def statusOf : ChatResult → Option Nat
  | .http s _ => some s
  | .stream _ _ => none

/-- The mode of the provider call behind a streaming result. -/
def modeOf : ChatResult → Option Mode
  | .stream c _ => some c.mode
  | .http _ _ => none

/-- The event sequence of a streaming result. -/
def eventsOf : ChatResult → Option (List Event)
  | .stream _ es => some es
  | .http _ _ => none

/-- A decode environment in which every payload fails to decode (no
text-like file is involved in the concrete checks that use it). -/
def decodeNone : List Char → Option String := fun _ => none

/-- A concrete image attachment. -/
def fileImgEx : FileData :=
  { ty := "image/png", data := "AAAA".data, name := some "shot.png" }

/-- The text block of the spec's screen-capture example. -/
def tbEx : CPart := CPart.text "describe"

/-- A context holding a primary key but no secondary-provider credential. -/
def ctxEx : Ctx :=
  { authed := true, apiKey := some "sk-ant-test", chatGptKey := none,
    clientInitFails := false }

/-- A request declaring one tool for the secondary provider. -/
def reqToolsEx : ChatRequest :=
  { message := .str "hi", history := [], systemPrompt := "",
    tools := [{ name := "chatgpt" }], files := [], model := none }

/-- A provider outcome whose response carries a tool invocation naming the
secondary provider, closing normally after one text delta. -/
def provToolEx : ProviderOutcome :=
  { deltas := ["hello"], err := none,
    toolUse := some { toolName := "chatgpt", callId := "toolu_1",
                      prompt := "look this up", surfaceResult := true } }

/-- A request whose `message` is the empty string. -/
def reqEmptyEx : ChatRequest :=
  { message := .str "", history := [], systemPrompt := "", tools := [],
    files := [], model := none }

/-- An authenticated context lacking the `X-API-Key` header. -/
def ctxNoKeyEx : Ctx :=
  { authed := true, apiKey := none, chatGptKey := none, clientInitFails := false }

/-- A provider outcome with no deltas, closing normally. -/
def provPlainEx : ProviderOutcome :=
  { deltas := [], err := none, toolUse := none }

/-! ## Helper lemmas -/

theorem leadsWith_iff (n : List Char) : ∀ h : List Char,
    leadsWith n h = true ↔ ∃ t, h = n ++ t := by
  induction n with
  | nil => intro h; simp [leadsWith]
  | cons a as ih =>
    intro h
    cases h with
    | nil => simp [leadsWith]
    | cons b bs => simp [leadsWith, ih bs, eq_comm (a := b) (b := a), and_assoc]

theorem hasSub_iff (n : List Char) : ∀ h : List Char,
    hasSub n h = true ↔ OccursIn n h := by
  intro h
  induction h with
  | nil => simp [hasSub, leadsWith_iff, OccursIn]
  | cons b bs ih =>
    simp only [hasSub, Bool.or_eq_true, leadsWith_iff, ih]
    constructor
    · rintro (⟨t, ht⟩ | ⟨s, t, hst⟩)
      · exact ⟨[], t, by simp [ht]⟩
      · exact ⟨b :: s, t, by simp [hst]⟩
    · rintro ⟨s, t, hst⟩
      cases s with
      | nil => exact Or.inl ⟨t, by simpa using hst⟩
      | cons x xs =>
        simp only [List.cons_append, List.cons.injEq] at hst
        exact Or.inr ⟨xs, t, hst.2⟩

theorem contains_iff_mem (l : List Char) (a : Char) : l.contains a = true ↔ a ∈ l := by
  simp [List.contains]

theorem countP_map_chunk (p : Event → Bool) (hp : ∀ s, p (Event.chunk s) = false)
    (ds : List String) : (ds.map Event.chunk).countP p = 0 := by
  induction ds with
  | nil => rfl
  | cons d ds ih => simp [List.countP_cons, hp, ih]

theorem mem_map_chunk {e : Event} {ds : List String}
    (h : e ∈ ds.map Event.chunk) : isChunk e = true := by
  rcases List.mem_map.mp h with ⟨s, _, rfl⟩
  rfl

theorem str_empty_append (s : String) : "" ++ s = s := by
  cases s with
  | mk data => show String.mk ([] ++ data) = String.mk data; rw [List.nil_append]

/-! ## Claim theorems -/

/-- C1: for every streaming response body produced by `/chat`, the emitted
event sequence contains exactly one terminal event (`done` or `error`, never
both), that terminal event is the last event, and every event before it is a
`chunk`. -/
theorem C1_terminal_event (p : ProviderOutcome) :
    (generate p).countP isTerminal = 1 ∧
    (∃ t, (generate p).getLast? = some t ∧ isTerminal t = true) ∧
    (∀ e ∈ (generate p).dropLast, isChunk e = true) := by
  have hz := countP_map_chunk isTerminal (fun s => rfl) p.deltas
  cases hp : p.err with
  | none =>
    refine ⟨?_, ⟨Event.done, ?_, rfl⟩, ?_⟩
    · simp [generate, hp, List.countP_append, hz, List.countP_cons, isTerminal, isDone]
    · simp [generate, hp]
    · intro e he
      simp only [generate, hp] at he
      rw [List.dropLast_concat] at he
      exact mem_map_chunk he
  | some raw =>
    refine ⟨?_, ⟨Event.error (classify_error raw), ?_, rfl⟩, ?_⟩
    · simp [generate, hp, List.countP_append, hz, List.countP_cons, isTerminal, isDone, isError]
    · simp [generate, hp]
    · intro e he
      simp only [generate, hp] at he
      rw [List.dropLast_concat] at he
      exact mem_map_chunk he

open Classical in
/-- C7: when the provider call raises with message `raw`, exactly one
`error` event is emitted, it is the last event, and its message is the
case-insensitive substring classification of `raw`: an authentication /
api-key mention yields the fixed credential message, otherwise a usage /
quota mention yields the fixed limit message, otherwise `raw` passes
through.  Totality of `generate` reflects that the failure is caught rather
than propagated. -/
theorem C7_error_classification (deltas : List String) (raw : String)
    (tu : Option ToolInvocation) :
    (generate ⟨deltas, some raw, tu⟩).countP isError = 1 ∧
    (generate ⟨deltas, some raw, tu⟩).getLast? =
      some (Event.error (classify_error raw)) ∧
    classify_error raw =
      (if OccursIn "authentication".data (lowerChars raw) ∨
          OccursIn "api key".data (lowerChars raw) then
        "Invalid API key. Please check your API key in Settings."
      else if OccursIn "usage".data (lowerChars raw) ∨
          OccursIn "quota".data (lowerChars raw) then
        "API usage limit reached. Please check your account."
      else raw) := by
  have hz := countP_map_chunk isError (fun s => rfl) deltas
  refine ⟨?_, ?_, ?_⟩
  · simp [generate, List.countP_append, hz, List.countP_cons, isError]
  · simp [generate]
  · have hA : (hasSub "authentication".data (lowerChars raw) ||
        hasSub "api key".data (lowerChars raw)) = true ↔
        (OccursIn "authentication".data (lowerChars raw) ∨
         OccursIn "api key".data (lowerChars raw)) := by
      simp [hasSub_iff]
    have hU : (hasSub "usage".data (lowerChars raw) ||
        hasSub "quota".data (lowerChars raw)) = true ↔
        (OccursIn "usage".data (lowerChars raw) ∨
         OccursIn "quota".data (lowerChars raw)) := by
      simp [hasSub_iff]
    simp only [classify_error]
    by_cases h1 : OccursIn "authentication".data (lowerChars raw) ∨
        OccursIn "api key".data (lowerChars raw)
    · rw [if_pos (hA.mpr h1), if_pos h1]
    · rw [if_neg (fun hc => h1 (hA.mp hc)), if_neg h1]
      by_cases h2 : OccursIn "usage".data (lowerChars raw) ∨
          OccursIn "quota".data (lowerChars raw)
      · rw [if_pos (hU.mpr h2), if_pos h2]
      · rw [if_neg (fun hc => h2 (hU.mp hc)), if_neg h2]

/-- C4 counterexample: a request whose provider response carries a tool
invocation naming the secondary provider, in a context with no
secondary-provider credential, yields a stream ending in `done` that
contains zero `error` events — not the single terminal `error` the claim
requires. -/
theorem C4_counterexample :
    eventsOf (chat decodeNone ctxEx reqToolsEx provToolEx) =
      some [Event.chunk "hello", Event.done] ∧
    ctxEx.chatGptKey = none ∧
    provToolEx.toolUse ≠ none ∧
    ((eventsOf (chat decodeNone ctxEx reqToolsEx provToolEx)).getD []).countP isError = 0 := by
  refine ⟨rfl, rfl, by decide, rfl⟩

/-- C4 amended: the `/chat` stream producer ignores tool invocations
entirely — the event sequence does not depend on the `toolUse` part of the
provider outcome, a normally closing stream ends with `done` and contains no
`error` event regardless of any tool invocation or missing secondary
credential, and every emitted event is either `done` or a `chunk` of one of
the provider's text deltas (so no chunk references a tool result and no tool
resolution is attempted). -/
theorem C4_amended (deltas : List String) (err : Option String)
    (tu tu' : Option ToolInvocation) :
    generate ⟨deltas, err, tu⟩ = generate ⟨deltas, err, tu'⟩ ∧
    (generate ⟨deltas, none, tu⟩).getLast? = some Event.done ∧
    (generate ⟨deltas, none, tu⟩).countP isError = 0 ∧
    (∀ e ∈ generate ⟨deltas, none, tu⟩,
      e = Event.done ∨ ∃ s ∈ deltas, e = Event.chunk s) := by
  refine ⟨rfl, by simp [generate], ?_, ?_⟩
  · simp [generate, List.countP_append, countP_map_chunk isError (fun s => rfl) deltas,
      List.countP_cons, isError]
  · intro e he
    simp only [generate, List.mem_append, List.mem_singleton] at he
    rcases he with he | he
    · rcases List.mem_map.mp he with ⟨s, hs, rfl⟩
      exact Or.inr ⟨s, hs, rfl⟩
    · exact Or.inl he

/-- C2 counterexample: a request declaring a non-empty tools list is still
served by a streaming-mode provider call, not the single-shot mode the claim
requires. -/
theorem C2_counterexample :
    reqToolsEx.tools ≠ [] ∧
    modeOf (chat decodeNone ctxEx reqToolsEx provToolEx) = some Mode.streaming ∧
    modeOf (chat decodeNone ctxEx reqToolsEx provToolEx) ≠ some Mode.singleShot := by
  refine ⟨by decide, rfl, by decide⟩

/-- C2 amended: tool declarations, when non-empty, are passed through in the
provider call's parameters, but the provider is always invoked in streaming
mode — every streaming `/chat` response comes from a streaming-mode call,
and single-shot mode is never used. -/
theorem C2_amended (decode : List Char → Option String) (ctx : Ctx)
    (req : ChatRequest) (p : ProviderOutcome) :
    (modeOf (chat decode ctx req p) = none ∨
      modeOf (chat decode ctx req p) = some Mode.streaming) ∧
    (chatCall (req.model.getD defaultModel)
        (buildMessages decode req.history req.message req.files)
        req.systemPrompt req.tools).mode = Mode.streaming ∧
    (chatCall (req.model.getD defaultModel)
        (buildMessages decode req.history req.message req.files)
        req.systemPrompt req.tools).params.tools =
      (if req.tools.isEmpty then none else some req.tools) := by
  refine ⟨?_, rfl, rfl⟩
  unfold chat
  split
  · exact Or.inl rfl
  · split
    · exact Or.inl rfl
    · split
      · exact Or.inl rfl
      · split
        · exact Or.inl rfl
        · split
          · exact Or.inl rfl
          · exact Or.inr rfl

theorem textTypes_props (ty : String) (h : ty ∈ textTypes) :
    pyStartsWith ty "image/" = false ∧ (ty == "application/pdf") = false := by
  fin_cases h <;> exact ⟨by decide, by decide⟩

theorem image_not_textType (ty : String) (h : pyStartsWith ty "image/" = true) :
    ty ∉ textTypes := by
  intro hm
  rw [(textTypes_props ty hm).1] at h
  cases h

theorem pdf_not_textType (ty : String) (h : (ty == "application/pdf") = true) :
    ty ∉ textTypes := by
  intro hm
  rw [(textTypes_props ty hm).2] at h
  cases h

theorem process_files_fst (decode : List Char → Option String)
    (files : List FileData) :
    (process_files decode files).1 = files.filterMap specBlock := by
  induction files with
  | nil => rfl
  | cons f rest ih =>
    simp only [process_files, List.filterMap_cons]
    by_cases h1 : pyStartsWith f.ty "image/"
    · simp [specBlock, h1, ih]
    · by_cases h2 : f.ty == "application/pdf"
      · simp [specBlock, h1, h2, ih]
      · by_cases h3 : f.ty ∈ textTypes
        · cases hd : decode (payloadOf f.data) <;>
            simp [specBlock, h1, h2, h3, hd, ih]
        · simp [specBlock, h1, h2, h3, ih]

theorem process_files_snd (decode : List Char → Option String)
    (files : List FileData) :
    (process_files decode files).2 = specText decode files := by
  induction files with
  | nil => rfl
  | cons f rest ih =>
    simp only [process_files, specText]
    by_cases h1 : pyStartsWith f.ty "image/"
    · simp [specSection, h1, image_not_textType f.ty h1, ih, str_empty_append]
    · by_cases h2 : f.ty == "application/pdf"
      · simp [specSection, h1, h2, pdf_not_textType f.ty h2, ih, str_empty_append]
      · by_cases h3 : f.ty ∈ textTypes
        · cases hd : decode (payloadOf f.data) <;>
            simp [specSection, h1, h2, h3, hd, ih, str_empty_append]
        · simp [specSection, h1, h2, h3, ih, str_empty_append]

theorem specBlock_not_text {f : FileData} {p : CPart}
    (h : specBlock f = some p) : isTextPart p = false := by
  by_cases h1 : pyStartsWith f.ty "image/"
  · simp only [specBlock, h1, if_true] at h
    cases h; rfl
  · by_cases h2 : f.ty == "application/pdf"
    · simp only [specBlock, h1, h2, if_false, if_true, Bool.false_eq_true] at h
      cases h; rfl
    · simp [specBlock, h1, h2] at h

theorem count_image (decode : List Char → Option String) (files : List FileData) :
    ((process_files decode files).1).countP isImagePart =
      files.countP (fun f => pyStartsWith f.ty "image/") := by
  rw [process_files_fst]
  induction files with
  | nil => rfl
  | cons f rest ih =>
    simp only [List.filterMap_cons, List.countP_cons]
    by_cases h1 : pyStartsWith f.ty "image/"
    · simp [specBlock, h1, List.countP_cons, isImagePart, ih]
    · by_cases h2 : f.ty == "application/pdf"
      · simp [specBlock, h1, h2, List.countP_cons, isImagePart, ih]
      · simp [specBlock, h1, h2, ih]

theorem count_doc (decode : List Char → Option String) (files : List FileData) :
    ((process_files decode files).1).countP isDocPart =
      files.countP (fun f => f.ty == "application/pdf") := by
  rw [process_files_fst]
  induction files with
  | nil => rfl
  | cons f rest ih =>
    simp only [List.filterMap_cons, List.countP_cons]
    by_cases h1 : pyStartsWith f.ty "image/"
    · have h2 : (f.ty == "application/pdf") = false := by
        cases hc : f.ty == "application/pdf" with
        | false => rfl
        | true =>
          rw [eq_of_beq hc] at h1
          exact absurd h1 (by decide)
      simp [specBlock, h1, h2, List.countP_cons, isDocPart, ih]
    · by_cases h2 : f.ty == "application/pdf"
      · simp [specBlock, h1, h2, List.countP_cons, isDocPart, ih]
      · simp [specBlock, h1, h2, ih]

/-- C5: `process_files` returns the blocks of exactly the image and pdf
attachments — one image block per `image/*` attachment and one document
block per `application/pdf` attachment, in input order — and an inlined text
that is the concatenation, in input order, of one labeled section per
allow-listed text-like attachment whose payload decoded; a decode failure
contributes no section (skipping only that attachment) and any other media
type contributes neither a block nor text. -/
theorem C5_process_files (decode : List Char → Option String)
    (files : List FileData) :
    (process_files decode files).1 = files.filterMap specBlock ∧
    (process_files decode files).2 = specText decode files ∧
    ((process_files decode files).1).countP isImagePart =
      files.countP (fun f => pyStartsWith f.ty "image/") ∧
    ((process_files decode files).1).countP isDocPart =
      files.countP (fun f => f.ty == "application/pdf") :=
  ⟨process_files_fst decode files, process_files_snd decode files,
    count_image decode files, count_doc decode files⟩

/-- C3 counterexample: for the spec's own example — current message
`[{type: "text", text: "describe"}]` plus one image attachment — the built
content is the image block followed by the original array element, with NO
trailing text block, contradicting the claimed
`blocks ++ original ++ [text block]` shape. -/
theorem C3_counterexample :
    buildCurrent decodeNone (.parts [tbEx]) [fileImgEx] =
      .parts [CPart.image "image/png" "AAAA".data, tbEx] ∧
    buildCurrent decodeNone (.parts [tbEx]) [fileImgEx] ≠
      .parts [CPart.image "image/png" "AAAA".data, tbEx, CPart.text "describe"] := by
  exact ⟨by decide, by decide⟩

/-- C3 amended: when the current message is a block array and attachments
are present, the built content is exactly the normalized non-text blocks
followed by all of the original array's elements; no trailing text block is
appended, so the inlined file text and the extracted text are dropped in the
array case (the trailing text block exists only in the string-message
branch).  The second conjunct shows the normalized blocks are never text
blocks. -/
theorem C3_amended (decode : List Char → Option String) (orig : List CPart)
    (files : List FileData) :
    buildCurrent decode (.parts orig) files =
      (if files.isEmpty then Content.parts orig
       else Content.parts ((process_files decode files).1 ++ orig)) ∧
    (∀ p ∈ (process_files decode files).1, isTextPart p = false) := by
  constructor
  · by_cases hf : files.isEmpty <;> simp [buildCurrent, hf]
  · intro p hp
    rw [process_files_fst] at hp
    rcases List.mem_filterMap.mp hp with ⟨f, _, hsb⟩
    exact specBlock_not_text hsb

theorem pySplit_ne_nil (sep : Char) (l : List Char) : pySplit sep l ≠ [] := by
  cases l with
  | nil => simp [pySplit]
  | cons c rest =>
    cases hcs : c == sep
    · cases hr : pySplit sep rest <;> simp [pySplit, hcs, hr]
    · simp [pySplit, hcs]

theorem pySplit_getD_zero (sep : Char) (l : List Char) :
    (pySplit sep l).getD 0 [] = l.takeWhile (fun c => !(c == sep)) := by
  induction l with
  | nil => rfl
  | cons c rest ih =>
    cases hcs : c == sep
    · cases hr : pySplit sep rest with
      | nil => exact absurd hr (pySplit_ne_nil sep rest)
      | cons h t =>
        have hsplit : pySplit sep (c :: rest) = (c :: h) :: t := by
          simp [pySplit, hcs, hr]
        rw [hr] at ih
        simp only [List.getD_cons_zero] at ih
        rw [hsplit]
        simp [List.takeWhile_cons, hcs, ih]
    · simp [pySplit, hcs, List.takeWhile_cons]

/-- C6 counterexample: on a payload string with two commas the code takes the
second comma-separated field (`"b"`), not everything after the first comma
(`"b,c"`), because `split(',')[1]` stops at the next comma. -/
theorem C6_counterexample :
    payloadOf "a,b,c".data = "b".data ∧
    payloadOf "a,b,c".data ≠ "b,c".data := by
  exact ⟨by decide, by decide⟩

/-- C6 amended: when the transport payload string contains a comma, the
portion treated as base64 is the second comma-separated field — the
substring strictly between the first comma and the following comma (or the
end of the string) — and when no comma is present the entire string is the
payload. -/
theorem C6_amended (data : List Char) :
    payloadOf data =
      (if ',' ∈ data then
        ((data.dropWhile (fun c => !(c == ','))).drop 1).takeWhile
          (fun c => !(c == ','))
      else data) := by
  induction data with
  | nil => simp [payloadOf]
  | cons c cs ih =>
    cases hcs : c == ','
    · have hcne : ¬ (',' = c) := by
        intro h; rw [← h] at hcs; simp at hcs
      cases hmem : cs.contains ','
      · have hmem2 : ¬ (',' ∈ cs) := fun hin => by
          have hc2 := (contains_iff_mem cs ',').mpr hin
          rw [hmem] at hc2
          cases hc2
        have hall : ¬ (',' ∈ c :: cs) := by
          intro h
          rcases List.mem_cons.mp h with h | h
          · exact hcne h
          · exact hmem2 h
        have hcont : (c :: cs).contains ',' = false := by
          cases hx : (c :: cs).contains ',' with
          | false => rfl
          | true => exact absurd (contains_iff_mem _ _ |>.mp hx) hall
        rw [if_neg hall]
        unfold payloadOf
        rw [hcont]
        simp
      · have hmem2 : ',' ∈ cs := contains_iff_mem cs ',' |>.mp hmem
        have hmemc : ',' ∈ c :: cs := List.mem_cons_of_mem _ hmem2
        have hcontc : (c :: cs).contains ',' = true :=
          contains_iff_mem _ _ |>.mpr hmemc
        cases hr : pySplit ',' cs with
        | nil => exact absurd hr (pySplit_ne_nil ',' cs)
        | cons h t =>
          have hsplit : pySplit ',' (c :: cs) = (c :: h) :: t := by
            simp [pySplit, hcs, hr]
          have hL : payloadOf (c :: cs) = t.getD 0 [] := by
            unfold payloadOf
            rw [if_pos hcontc, hsplit, List.getD_cons_succ]
          have hL2 : payloadOf cs = t.getD 0 [] := by
            unfold payloadOf
            rw [if_pos hmem, hr, List.getD_cons_succ]
          rw [if_pos hmem2, hL2] at ih
          rw [hL, if_pos hmemc, List.dropWhile_cons]
          simp only [hcs, Bool.not_false, if_true]
          exact ih
    · have hceq : c = ',' := eq_of_beq hcs
      subst hceq
      have hmemc : ',' ∈ ',' :: cs := List.mem_cons_self ',' cs
      have hcontc : (',' :: cs).contains ',' = true :=
        contains_iff_mem _ _ |>.mpr hmemc
      have hsplit : pySplit ',' (',' :: cs) = [] :: pySplit ',' cs := by
        simp [pySplit]
      have hL : payloadOf (',' :: cs) = (pySplit ',' cs).getD 0 [] := by
        unfold payloadOf
        rw [if_pos hcontc, hsplit, List.getD_cons_succ]
      rw [hL, if_pos hmemc]
      have hdw : (',' :: cs).dropWhile (fun c => !(c == ',')) = ',' :: cs := rfl
      rw [hdw, List.drop_succ_cons, List.drop_zero, pySplit_getD_zero]

/-- C8: an authenticated `/chat` request carrying a usable `X-API-Key`
header whose `message` field is the empty string or the empty array gets
HTTP 400 with the JSON error body, for every provider behaviour `p` — the
result is an `http` value, so no provider call is made and no stream is
opened. -/
theorem C8_empty_message_400 (decode : List Char → Option String) (ctx : Ctx)
    (req : ChatRequest) (p : ProviderOutcome) (k : String)
    (hauth : ctx.authed = true) (hk : ctx.apiKey = some k) (hk2 : k ≠ "")
    (hci : ctx.clientInitFails = false)
    (hm : req.message = Content.str "" ∨ req.message = Content.parts []) :
    chat decode ctx req p = ChatResult.http 400 "No message provided" := by
  have hb : (k == "") = false := by
    cases hx : k == "" with
    | false => rfl
    | true => exact absurd (eq_of_beq hx) hk2
  have hmf : msgFalsy req.message = true := by
    rcases hm with h | h <;> simp [msgFalsy, h]
  simp [chat, hauth, hk, hb, hci, hmf]

/-- C8 witness: the concrete empty-string request under a valid context is
rejected with 400. -/
theorem C8_witness :
    chat decodeNone ctxEx reqEmptyEx provPlainEx =
      ChatResult.http 400 "No message provided" :=
  C8_empty_message_400 decodeNone ctxEx reqEmptyEx provPlainEx "sk-ant-test"
    rfl rfl (by decide) rfl (Or.inl rfl)

/-- C9: a `/chat` request lacking the `X-API-Key` header gets HTTP 401 with
a JSON error body regardless of the request body and of provider behaviour:
the credential check precedes message validation, so even an empty message
yields 401, not 400. -/
theorem C9_missing_key_401 (decode : List Char → Option String) (ctx : Ctx)
    (req : ChatRequest) (p : ProviderOutcome) (hk : ctx.apiKey = none) :
    statusOf (chat decode ctx req p) = some 401 := by
  cases hA : ctx.authed <;> simp [chat, hA, hk, statusOf]

/-- C9 witness: a request that simultaneously lacks the key and carries an
empty message receives 401 (not 400). -/
theorem C9_witness :
    statusOf (chat decodeNone ctxNoKeyEx reqEmptyEx provPlainEx) = some 401 :=
  C9_missing_key_401 decodeNone ctxNoKeyEx reqEmptyEx provPlainEx rfl

/-- C10: for an array message with no part whose `type` field equals
`"text"`, `extract_message_text` returns the empty string, and the trailing
text computation `finalText` applied to any inlined file text and that
extraction yields the inlined text unchanged (concatenation with the empty
string); both functions are total, so no exception can arise. -/
theorem C10_no_text_part (parts : List CPart) (tfc : String)
    (h : ∀ p ∈ parts, partType p ≠ some "text") :
    extract_message_text (Content.parts parts) = "" ∧
    finalText tfc (extract_message_text (Content.parts parts)) = tfc := by
  have hf : parts.find? (fun p => partType p == some "text") = none := by
    rw [List.find?_eq_none]
    intro x hx
    simpa using h x hx
  have h1 : extract_message_text (Content.parts parts) = "" := by
    simp [extract_message_text, hf]
  refine ⟨h1, ?_⟩
  rw [h1]
  unfold finalText
  cases ht : tfc == "" with
  | true => simp [eq_of_beq ht]
  | false => simp

/-- C10 witness: a single image part carries no text-typed element, so the
extraction is empty and the trailing text equals the inlined text. -/
theorem C10_witness :
    extract_message_text (Content.parts [CPart.image "image/png" []]) = "" ∧
    finalText "F" (extract_message_text (Content.parts [CPart.image "image/png" []])) = "F" :=
  C10_no_text_part [CPart.image "image/png" []] "F" (by decide)
